import Mathlib

/-
Verification of the qdiary application (src/main.cpp): a calendar-backed
diary keeping free-text entries in a single SQLite table
`diary(id INTEGER PRIMARY KEY AUTOINCREMENT, date DATE, entry TEXT)`.

The embedding models the table as a list of rows in rowid order (a plain
`SELECT` without `ORDER BY` scans the table in this order, and rows are
only ever appended with increasing AUTOINCREMENT ids), and the SQL
statements executed by the slots `showEntry`, `addEntry`, `updateEntry`,
`removeEntry` and by `highlightDaysWithEntries` as functions on that list.
The widget-visible state (text edit buffer, selected date, green calendar
highlights, qDebug log) is an `AppState` record, and each slot is a
function on it.  A statement execution that can fail (`query.exec()`) is
given its success as a boolean input: a failed statement modifies no rows,
and the C++ handler logs the error and returns before any further step.
-/

namespace QDiary

/-- A calendar date, represented as the `yyyy-MM-dd` string that the
program binds into every SQL statement (`date.toString("yyyy-MM-dd")`). -/
abbrev Date := String

/-- One row of the `diary` table:
`id INTEGER PRIMARY KEY AUTOINCREMENT, date DATE, entry TEXT`. -/
structure Row where
  id : Nat
  date : Date
  entry : String
deriving Repr, DecidableEq

/-- The `diary` table: its rows in rowid (scan) order, and the next
AUTOINCREMENT id to be assigned. -/
structure Store where
  rows : List Row
  nextId : Nat
deriving Repr, DecidableEq

/-- The table right after `CREATE TABLE IF NOT EXISTS diary (...)` on a
fresh database file: no rows, first id 1. -/
def initStore : Store := { rows := [], nextId := 1 }

/-- `SELECT entry FROM diary WHERE date = :date` followed by one
`query.next()`: the entry of the first row in scan order whose date
matches, or none. -/
def selectEntry (s : Store) (d : Date) : Option String :=
  (s.rows.find? fun r => r.date = d).map Row.entry

/-- `INSERT INTO diary (date, entry) VALUES (:date, :entry)`: appends a
fresh row with the next AUTOINCREMENT id. -/
def insertEntry (s : Store) (d : Date) (t : String) : Store :=
  { rows := s.rows ++ [{ id := s.nextId, date := d, entry := t }],
    nextId := s.nextId + 1 }

/-- `UPDATE diary SET entry = :entry WHERE date = :date`: rewrites the
entry of every row whose date matches; rows for other dates and the scan
order are untouched. -/
def updateWhereDate (s : Store) (d : Date) (t : String) : Store :=
  { s with rows := s.rows.map fun r => if r.date = d then { r with entry := t } else r }

/-- `DELETE FROM diary WHERE date = :date`: removes every row whose date
matches. -/
def deleteWhereDate (s : Store) (d : Date) : Store :=
  { s with rows := s.rows.filter fun r => r.date ≠ d }

/-- `SELECT date FROM diary`: the date of every row, in scan order. -/
def listDatesWithEntries (s : Store) : List Date :=
  s.rows.map Row.date

/-- How many rows of the table are keyed by the given date. -/
def countDate (s : Store) (d : Date) : Nat :=
  (s.rows.filter fun r => r.date = d).length

/-- The storage operations reachable from the three mutating slots. -/
inductive Op where
  | add (d : Date) (t : String)
  | update (d : Date) (t : String)
  | remove (d : Date)
deriving Repr, DecidableEq

/-- Apply one storage operation to the table. -/
def applyOp (s : Store) : Op → Store
  | .add d t => insertEntry s d t
  | .update d t => updateWhereDate s d t
  | .remove d => deleteWhereDate s d

/-- Run a sequence of storage operations from a given table state. -/
def runOps (s : Store) (ops : List Op) : Store :=
  ops.foldl applyOp s

/-- The spec's per-date uniqueness invariant: no date keys two rows. -/
def atMostOnePerDate (s : Store) : Prop :=
  ∀ d : Date, countDate s d ≤ 1

/-- Widget-visible application state: the table, the `entryTextEdit`
buffer, the calendar's selected date, the set of dates currently shown
with a green format, and the qDebug log. -/
structure AppState where
  store : Store
  buffer : String
  selectedDate : Date
  highlights : Finset Date
  log : List String
deriving DecidableEq

/-- `highlightDaysWithEntries()`: resets the text format of every date,
then runs `SELECT date FROM diary` and marks each returned date green; the
highlighted set becomes exactly the set of dates keying a row. -/
def highlightDaysWithEntries (a : AppState) : AppState :=
  { a with highlights := (listDatesWithEntries a.store).toFinset }

/-- `showEntry(date)` slot: runs the select for the activated date and
either displays the found entry in the text edit or clears it. -/
def showEntry (a : AppState) (d : Date) : AppState :=
  match selectEntry a.store d with
  | some t => { a with buffer := t }
  | none => { a with buffer := "" }

/-- `addEntry()` slot: inserts (selected date, buffer text).  `ok` is the
result of `query.exec()`; on failure the statement changed no rows, the
error is logged and the handler returns before the highlight refresh. -/
def addEntry (a : AppState) (ok : Bool) : AppState :=
  if ok then
    highlightDaysWithEntries
      { a with
        store := insertEntry a.store a.selectedDate a.buffer,
        log := a.log ++ ["Diary entry added successfully for " ++ a.selectedDate] }
  else
    { a with log := a.log ++ ["Error inserting diary entry"] }

/-- `updateEntry()` slot: updates every row for the selected date to the
buffer text; same failure discipline as `addEntry`. -/
def updateEntry (a : AppState) (ok : Bool) : AppState :=
  if ok then
    highlightDaysWithEntries
      { a with
        store := updateWhereDate a.store a.selectedDate a.buffer,
        log := a.log ++ ["Diary entry updated successfully for " ++ a.selectedDate] }
  else
    { a with log := a.log ++ ["Error updating diary entry"] }

/-- `removeEntry()` slot: deletes every row for the selected date; same
failure discipline as `addEntry`. -/
def removeEntry (a : AppState) (ok : Bool) : AppState :=
  if ok then
    highlightDaysWithEntries
      { a with
        store := deleteWhereDate a.store a.selectedDate,
        log := a.log ++ ["Diary entry removed successfully for " ++ a.selectedDate] }
  else
    { a with log := a.log ++ ["Error removing diary entry"] }

/-- Sample state: a fresh database with the widget state right after
startup, the calendar on 2024-03-01 and an empty text edit. -/
def freshApp : AppState :=
  { store := initStore, buffer := "", selectedDate := "2024-03-01",
    highlights := ∅, log := [] }

/-- Sample state: one entry already stored for 2024-03-01. -/
def helloApp : AppState :=
  { store := insertEntry initStore "2024-03-01" "Hello", buffer := "",
    selectedDate := "2024-03-01", highlights := ∅, log := [] }

theorem countDate_eq_zero_iff (s : Store) (d : Date) :
    countDate s d = 0 ↔ ∀ r ∈ s.rows, r.date ≠ d := by
  simp [countDate, List.length_eq_zero, List.filter_eq_nil_iff]

theorem selectEntry_eq_none_iff (s : Store) (d : Date) :
    selectEntry s d = none ↔ ∀ r ∈ s.rows, r.date ≠ d := by
  simp [selectEntry, List.find?_eq_none]

theorem countDate_insertEntry (s : Store) (d : Date) (t : String) (e : Date) :
    countDate (insertEntry s d t) e = countDate s e + (if d = e then 1 else 0) := by
  simp only [countDate, insertEntry, List.filter_append, List.length_append]
  by_cases h : d = e <;> simp [h]

theorem countDate_updateWhereDate (s : Store) (d : Date) (t : String) (e : Date) :
    countDate (updateWhereDate s d t) e = countDate s e := by
  simp only [countDate, updateWhereDate, List.filter_map, List.length_map]
  congr 1
  apply List.filter_congr
  intro r _
  by_cases h : r.date = d <;> simp [h, Function.comp]

theorem countDate_deleteWhereDate_le (s : Store) (d : Date) (e : Date) :
    countDate (deleteWhereDate s d) e ≤ countDate s e := by
  simp only [countDate, deleteWhereDate]
  exact ((List.filter_sublist s.rows).filter _).length_le

theorem countDate_deleteWhereDate_self (s : Store) (d : Date) :
    countDate (deleteWhereDate s d) d = 0 := by
  simp only [countDate, deleteWhereDate, List.length_eq_zero, List.filter_eq_nil_iff,
    List.mem_filter]
  intro r hr
  simp_all

theorem selectEntry_insertEntry_fresh (s : Store) (d : Date) (t : String)
    (h0 : countDate s d = 0) : selectEntry (insertEntry s d t) d = some t := by
  have hnone : s.rows.find? (fun r => r.date = d) = none := by
    rw [List.find?_eq_none]
    intro r hr
    simpa using (countDate_eq_zero_iff s d).mp h0 r hr
  simp [selectEntry, insertEntry, List.find?_append, hnone]

theorem selectEntry_insertEntry_ne_none (s : Store) (d : Date) (t : String) :
    selectEntry (insertEntry s d t) d ≠ none := by
  simp only [selectEntry, insertEntry, List.find?_append]
  cases hf : s.rows.find? fun r => r.date = d <;> simp [hf]

theorem mem_listDates_insertEntry (s : Store) (d : Date) (t : String) :
    d ∈ listDatesWithEntries (insertEntry s d t) := by
  simp [listDatesWithEntries, insertEntry]

theorem selectEntry_deleteWhereDate_self (s : Store) (d : Date) :
    selectEntry (deleteWhereDate s d) d = none := by
  rw [selectEntry_eq_none_iff]
  intro r hr
  have := (List.mem_filter.mp hr).2
  simpa using this

theorem not_mem_listDates_deleteWhereDate (s : Store) (d : Date) :
    d ∉ listDatesWithEntries (deleteWhereDate s d) := by
  intro hmem
  simp only [listDatesWithEntries, deleteWhereDate, List.mem_map] at hmem
  obtain ⟨r, hr, hrd⟩ := hmem
  have := (List.mem_filter.mp hr).2
  simp_all

/-- C1 counterexample: the uniqueness invariant is not preserved by the
operations.  Starting from the fresh table, two `addEntry` inserts for
2024-03-01 leave two rows keyed by that date, because the `INSERT` is
unconditional and the schema has no uniqueness constraint on `date`. -/
theorem c1_two_adds_break_uniqueness :
    ¬ atMostOnePerDate
        (runOps initStore [Op.add "2024-03-01" "a", Op.add "2024-03-01" "b"]) := by
  intro h
  have hd := h "2024-03-01"
  revert hd
  decide

/-- C1 (amended): per-date uniqueness is preserved by `update` and
`remove`, and by `add` only when the table holds no row for the added
date; an `add` on a date that already has a row breaks it. -/
theorem c1_preserved_when_add_is_fresh (s : Store) (op : Op)
    (hinv : atMostOnePerDate s)
    (hfresh : ∀ d t, op = Op.add d t → countDate s d = 0) :
    atMostOnePerDate (applyOp s op) := by
  cases op with
  | add d t =>
    intro e
    rw [applyOp, countDate_insertEntry]
    by_cases h : d = e
    · subst h
      rw [hfresh d t rfl]
      simp
    · simpa [h] using hinv e
  | update d t =>
    intro e
    rw [applyOp, countDate_updateWhereDate]
    exact hinv e
  | remove d =>
    intro e
    exact le_trans (countDate_deleteWhereDate_le s d e) (hinv e)

/-- C1 witness: the amended preservation theorem applied to the fresh
table and an `add` for a date with no existing row. -/
theorem c1_preserved_witness :
    countDate (applyOp initStore (Op.add "2024-03-01" "x")) "2024-03-01" ≤ 1 :=
  c1_preserved_when_add_is_fresh initStore (Op.add "2024-03-01" "x")
    (fun e => by simp [countDate, initStore])
    (fun d t h => by simp [countDate, initStore])
    "2024-03-01"

/-- C2 counterexample: with a row for 2024-03-01 already present (text
"a"), a successful `add(2024-03-01, "b")` does not make `get` return "b":
the `SELECT` reads the first matching row in scan order, which is still
the old one. -/
theorem c2_get_after_add_on_occupied_date :
    selectEntry (insertEntry (insertEntry initStore "2024-03-01" "a") "2024-03-01" "b")
        "2024-03-01" = some "a" ∧
      selectEntry (insertEntry (insertEntry initStore "2024-03-01" "a") "2024-03-01" "b")
        "2024-03-01" ≠ some "b" := by
  constructor <;> decide

/-- C2 (amended): after `add(d, t)` succeeds, `d` always appears in
`listDatesWithEntries()`; and `get(d) = t` holds provided the store held
no row for `d` beforehand (with a prior row, `get` keeps returning the
older row's text). -/
theorem c2_add_then_get (s : Store) (d : Date) (t : String) :
    d ∈ listDatesWithEntries (insertEntry s d t) ∧
      (countDate s d = 0 → selectEntry (insertEntry s d t) d = some t) := by
  exact ⟨mem_listDates_insertEntry s d t, selectEntry_insertEntry_fresh s d t⟩

/-- C2 witness: the amended theorem at the fresh table, date 2024-03-01
and text "Hello". -/
theorem c2_add_then_get_witness :
    "2024-03-01" ∈ listDatesWithEntries (insertEntry initStore "2024-03-01" "Hello") ∧
      selectEntry (insertEntry initStore "2024-03-01" "Hello") "2024-03-01" = some "Hello" :=
  ⟨(c2_add_then_get initStore "2024-03-01" "Hello").1,
   (c2_add_then_get initStore "2024-03-01" "Hello").2 (by decide)⟩

theorem find?_date_map_update (rows : List Row) (d e : Date) (t2 : String) :
    ((rows.map fun r => if r.date = d then { r with entry := t2 } else r).find?
        fun r => r.date = e)
      = (rows.find? fun r => r.date = e).map
          fun r => if r.date = d then { r with entry := t2 } else r := by
  induction rows with
  | nil => rfl
  | cons r rs ih =>
    have hdate : ((if r.date = d then { r with entry := t2 } else r) : Row).date = r.date := by
      by_cases hd : r.date = d <;> simp [hd]
    by_cases h : r.date = e
    · rw [List.map_cons, List.find?_cons_of_pos _ (by simp only [hdate]; simp [h]),
        List.find?_cons_of_pos _ (by simp [h])]
      rfl
    · rw [List.map_cons, List.find?_cons_of_neg _ (by simp only [hdate]; simp [h]),
        List.find?_cons_of_neg _ (by simp [h]), ih]

/-- C3: `update` on a date with no existing entry is a silent no-op: the
`UPDATE ... WHERE date` statement matches no row, the store is unchanged,
and `get` still returns absent afterwards. -/
theorem c3_update_missing_is_noop (s : Store) (d : Date) (t : String)
    (habs : selectEntry s d = none) :
    updateWhereDate s d t = s ∧ selectEntry (updateWhereDate s d t) d = none := by
  have hall := (selectEntry_eq_none_iff s d).mp habs
  have hid : (s.rows.map fun r => if r.date = d then { r with entry := t } else r)
      = s.rows.map id :=
    List.map_congr_left fun r hr => by simp [hall r hr]
  have heq : updateWhereDate s d t = s := by
    unfold updateWhereDate
    rw [hid, List.map_id]
  refine ⟨heq, ?_⟩
  rw [heq]
  exact habs

/-- C3 witness: updating 2024-03-02, which has no entry while 2024-03-01
has one, changes nothing and leaves `get(2024-03-02)` absent. -/
theorem c3_update_missing_witness :
    updateWhereDate (insertEntry initStore "2024-03-01" "Hello") "2024-03-02" "X"
        = insertEntry initStore "2024-03-01" "Hello" ∧
      selectEntry
        (updateWhereDate (insertEntry initStore "2024-03-01" "Hello") "2024-03-02" "X")
        "2024-03-02" = none :=
  c3_update_missing_is_noop (insertEntry initStore "2024-03-01" "Hello")
    "2024-03-02" "X" (by decide)

/-- C4: `update(d, t2)` on a date that has an entry makes `get(d)` return
`t2`, and leaves the entry (or absence) at every other date exactly as it
was. -/
theorem c4_update_existing (s : Store) (d : Date) (t2 : String)
    (hex : selectEntry s d ≠ none) :
    selectEntry (updateWhereDate s d t2) d = some t2 ∧
      ∀ e : Date, e ≠ d → selectEntry (updateWhereDate s d t2) e = selectEntry s e := by
  constructor
  · cases hfind : s.rows.find? fun r => r.date = d with
    | none => exact absurd (by simp [selectEntry, hfind]) hex
    | some r =>
      have hr : r.date = d := by simpa using List.find?_some hfind
      simp only [selectEntry, updateWhereDate]
      rw [find?_date_map_update, hfind]
      simp [hr]
  · intro e he
    simp only [selectEntry, updateWhereDate]
    rw [find?_date_map_update]
    cases hfind : s.rows.find? fun r => r.date = e with
    | none => simp [hfind]
    | some r =>
      have hr : r.date = e := by simpa using List.find?_some hfind
      have hrd : ¬ r.date = d := by
        rw [hr]
        exact he
      simp [hfind, hrd]

/-- C4 witness: with entries for 2024-03-01 ("Hello") and 2024-03-05
("W"), updating 2024-03-01 to "New" makes `get(2024-03-01) = "New"` and
leaves `get(2024-03-05)` unchanged. -/
theorem c4_update_existing_witness :
    selectEntry
        (updateWhereDate (insertEntry (insertEntry initStore "2024-03-01" "Hello")
          "2024-03-05" "W") "2024-03-01" "New") "2024-03-01" = some "New" ∧
      selectEntry
          (updateWhereDate (insertEntry (insertEntry initStore "2024-03-01" "Hello")
            "2024-03-05" "W") "2024-03-01" "New") "2024-03-05"
        = selectEntry (insertEntry (insertEntry initStore "2024-03-01" "Hello")
            "2024-03-05" "W") "2024-03-05" :=
  ⟨(c4_update_existing (insertEntry (insertEntry initStore "2024-03-01" "Hello")
      "2024-03-05" "W") "2024-03-01" "New" (by decide)).1,
   (c4_update_existing (insertEntry (insertEntry initStore "2024-03-01" "Hello")
      "2024-03-05" "W") "2024-03-01" "New" (by decide)).2 "2024-03-05" (by decide)⟩

/-- C5: after `remove(d)`, `get(d)` is absent and `d` is excluded from
`listDatesWithEntries()`; and if no entry existed for `d`, the `DELETE`
matches no row, so the store is unchanged. -/
theorem c5_remove_then_absent (s : Store) (d : Date) :
    selectEntry (deleteWhereDate s d) d = none ∧
      d ∉ listDatesWithEntries (deleteWhereDate s d) ∧
      (selectEntry s d = none → deleteWhereDate s d = s) := by
  refine ⟨selectEntry_deleteWhereDate_self s d, not_mem_listDates_deleteWhereDate s d, ?_⟩
  intro habs
  have hall := (selectEntry_eq_none_iff s d).mp habs
  unfold deleteWhereDate
  rw [List.filter_eq_self.mpr]
  intro r hr
  simpa using hall r hr

/-- C5 witness: removing 2024-03-01 after it was added leaves `get`
absent and the date unhighlighted; removing the absent 2024-03-07 from
the fresh table changes nothing. -/
theorem c5_remove_then_absent_witness :
    selectEntry (deleteWhereDate (insertEntry initStore "2024-03-01" "Hello") "2024-03-01")
        "2024-03-01" = none ∧
      deleteWhereDate initStore "2024-03-07" = initStore :=
  ⟨(c5_remove_then_absent (insertEntry initStore "2024-03-01" "Hello") "2024-03-01").1,
   (c5_remove_then_absent initStore "2024-03-07").2.2 (by decide)⟩

/-- C6: `recomputeHighlights` makes the highlighted set exactly the set
of dates returned by `SELECT date FROM diary`, whatever marks were set
before, leaves the store alone, and is idempotent: a second call with the
storage unchanged reproduces the identical state. -/
theorem c6_highlights_exact_and_idempotent (a : AppState) :
    (highlightDaysWithEntries a).highlights = (listDatesWithEntries a.store).toFinset ∧
      (highlightDaysWithEntries a).store = a.store ∧
      highlightDaysWithEntries (highlightDaysWithEntries a) = highlightDaysWithEntries a := by
  refine ⟨rfl, rfl, rfl⟩

/-- C7: selecting a date is a pure read: `showEntry` leaves the store,
the highlights and the log untouched, and on a date with no row the
select returns absent and the text edit is cleared. -/
theorem c7_get_absent_and_pure (a : AppState) (d : Date) :
    (showEntry a d).store = a.store ∧
      (showEntry a d).highlights = a.highlights ∧
      (showEntry a d).log = a.log ∧
      (countDate a.store d = 0 →
        selectEntry a.store d = none ∧ (showEntry a d).buffer = "") := by
  refine ⟨?_, ?_, ?_, ?_⟩
  · unfold showEntry
    cases selectEntry a.store d <;> rfl
  · unfold showEntry
    cases selectEntry a.store d <;> rfl
  · unfold showEntry
    cases selectEntry a.store d <;> rfl
  · intro h0
    have habs : selectEntry a.store d = none := by
      rw [selectEntry_eq_none_iff]
      exact (countDate_eq_zero_iff a.store d).mp h0
    refine ⟨habs, ?_⟩
    unfold showEntry
    rw [habs]

/-- C7 witness: on the state holding only an entry for 2024-03-01,
selecting 2024-03-02 returns absent and clears the text edit. -/
theorem c7_get_absent_and_pure_witness :
    selectEntry helloApp.store "2024-03-02" = none ∧
      (showEntry helloApp "2024-03-02").buffer = "" :=
  (c7_get_absent_and_pure helloApp "2024-03-02").2.2.2 (by decide)

/-- C8: when the statement execution fails on add, update or remove, the
handler logs the error and returns at once: the table, the highlights and
the text buffer are exactly as before, and the highlight refresh that
follows a successful statement never runs.  The handler is a total
function, so the application does not crash. -/
theorem c8_exec_failure_aborts (a : AppState) :
    ((addEntry a false).store = a.store ∧ (addEntry a false).highlights = a.highlights ∧
        (addEntry a false).buffer = a.buffer ∧
        (addEntry a false).log = a.log ++ ["Error inserting diary entry"]) ∧
      ((updateEntry a false).store = a.store ∧
        (updateEntry a false).highlights = a.highlights ∧
        (updateEntry a false).buffer = a.buffer ∧
        (updateEntry a false).log = a.log ++ ["Error updating diary entry"]) ∧
      ((removeEntry a false).store = a.store ∧
        (removeEntry a false).highlights = a.highlights ∧
        (removeEntry a false).buffer = a.buffer ∧
        (removeEntry a false).log = a.log ++ ["Error removing diary entry"]) := by
  simp [addEntry, updateEntry, removeEntry]

/-- C9: the `DELETE ... WHERE date` statement removes every row keyed by
the selected date, however many duplicates prior adds created: afterwards
the count of rows for that date is zero, `get` returns absent, and the
date is not highlighted. -/
theorem c9_remove_deletes_every_row (a : AppState) :
    countDate (removeEntry a true).store a.selectedDate = 0 ∧
      selectEntry (removeEntry a true).store a.selectedDate = none ∧
      a.selectedDate ∉ (removeEntry a true).highlights := by
  have hstore : (removeEntry a true).store = deleteWhereDate a.store a.selectedDate := by
    simp [removeEntry, highlightDaysWithEntries]
  have hhl : (removeEntry a true).highlights
      = (listDatesWithEntries (deleteWhereDate a.store a.selectedDate)).toFinset := by
    simp [removeEntry, highlightDaysWithEntries]
  refine ⟨?_, ?_, ?_⟩
  · rw [hstore]
    exact countDate_deleteWhereDate_self a.store a.selectedDate
  · rw [hstore]
    exact selectEntry_deleteWhereDate_self a.store a.selectedDate
  · rw [hhl, List.mem_toFinset]
    exact not_mem_listDates_deleteWhereDate a.store a.selectedDate

/-- C10: the empty string is accepted as entry text.  With an empty text
buffer, a successful add inserts a row whose entry is `""`; `get` on that
date then yields a present result, the date is listed and highlighted,
and if the date was previously unused `get` returns exactly `some ""`,
which is distinct from absent. -/
theorem c10_add_empty_text (a : AppState) (hbuf : a.buffer = "") :
    (∃ r ∈ (addEntry a true).store.rows, r.date = a.selectedDate ∧ r.entry = "") ∧
      selectEntry (addEntry a true).store a.selectedDate ≠ none ∧
      a.selectedDate ∈ listDatesWithEntries (addEntry a true).store ∧
      a.selectedDate ∈ (addEntry a true).highlights ∧
      (countDate a.store a.selectedDate = 0 →
        selectEntry (addEntry a true).store a.selectedDate = some "") := by
  have hstore : (addEntry a true).store = insertEntry a.store a.selectedDate "" := by
    simp [addEntry, highlightDaysWithEntries, hbuf]
  have hhl : (addEntry a true).highlights
      = (listDatesWithEntries (insertEntry a.store a.selectedDate "")).toFinset := by
    simp [addEntry, highlightDaysWithEntries, hbuf]
  refine ⟨?_, ?_, ?_, ?_, ?_⟩
  · rw [hstore]
    exact ⟨{ id := a.store.nextId, date := a.selectedDate, entry := "" },
      by simp [insertEntry], rfl, rfl⟩
  · rw [hstore]
    exact selectEntry_insertEntry_ne_none a.store a.selectedDate ""
  · rw [hstore]
    exact mem_listDates_insertEntry a.store a.selectedDate ""
  · rw [hhl, List.mem_toFinset]
    exact mem_listDates_insertEntry a.store a.selectedDate ""
  · intro h0
    rw [hstore]
    exact selectEntry_insertEntry_fresh a.store a.selectedDate "" h0

/-- C10 witness: from the startup state (empty buffer, fresh table,
2024-03-01 selected), a successful add yields `get = some ""` and the
date highlighted. -/
theorem c10_add_empty_text_witness :
    selectEntry (addEntry freshApp true).store freshApp.selectedDate = some "" ∧
      freshApp.selectedDate ∈ (addEntry freshApp true).highlights :=
  ⟨(c10_add_empty_text freshApp rfl).2.2.2.2 (by decide),
   (c10_add_empty_text freshApp rfl).2.2.2.1⟩

end QDiary
